import Mathlib

/-!
Verification development for `src/models.py`: two kernel estimators
(`KernelRidgeRegression` and `KernelLogisticRegression`) over a pluggable
kernel function.

Modelling conventions:
* numpy float arrays are modelled exactly over `ℚ`; `np.exp` and the square
  root inside `np.linalg.norm` are abstract parameters `ex sq : ℚ → ℚ`
  (the properties under study are algebraic in them, and concrete
  instantiations agree with the real functions at every point actually used).
* `np.linalg.solve A b` is modelled by `solveLin`: the unique solution,
  computed through the adjugate, when `A.det ≠ 0`, and `none` (numpy's
  `LinAlgError`) otherwise.
* Python exceptions are the inductive `PyError`.  `noneTypeError` stands for
  the untyped `TypeError`/`AttributeError` raised when an operation touches
  the unset (`None`) `Data`/`Alpha` fields; `nameError` models the
  `NameError` raised by `KernelLogisticRegression.train` when
  `max_iter = 0` (the loop variables `step`, `alpha_new`, `error` are then
  never bound); `linAlgError` is numpy's singular-system failure.
  `notTrainedErr` belongs to the design's error taxonomy and is never
  produced by the code; it is declared so that properties about it can be
  stated.
* mutation of `self` is modelled by returning the post-call state together
  with the exception (if any), reproducing the source's assignment order:
  `self.Data = X` is executed before any linear solve.
-/

/-- Python exception values relevant to `models.py` (see module docstring). -/
inductive PyError where
  | noneTypeError : PyError
  | linAlgError : PyError
  | nameError : PyError
  | shapeError : PyError
  | notTrainedErr : PyError
  deriving DecidableEq, Repr

/-- A kernel function: takes `X₁ : n₁×m` and `X₂ : n₂×m`, returns the Gram
matrix `K(X₁, X₂) : n₁×n₂`, exactly the `kernel_func` contract of
`models.py`. -/
def KernelFun (m : ℕ) : Type :=
  ∀ n₁ n₂ : ℕ, Matrix (Fin n₁) (Fin m) ℚ → Matrix (Fin n₂) (Fin m) ℚ →
    Matrix (Fin n₁) (Fin n₂) ℚ

/-- Model of `np.linalg.solve A b`: `none` when the matrix is singular
(numpy raises `LinAlgError`), otherwise the unique solution of
`A · x = b`, computed via the adjugate. -/
def solveLin {n : ℕ} (A : Matrix (Fin n) (Fin n) ℚ) (b : Fin n → ℚ) :
    Option (Fin n → ℚ) :=
  if A.det = 0 then none else some (A.det⁻¹ • A.adjugate.mulVec b)

theorem solveLin_det_ne {n : ℕ} {A : Matrix (Fin n) (Fin n) ℚ}
    {b x : Fin n → ℚ} (h : solveLin A b = some x) : A.det ≠ 0 := by
  intro hdet
  simp [solveLin, hdet] at h

/-- The value returned by `solveLin` really solves the linear system. -/
theorem solveLin_mulVec {n : ℕ} {A : Matrix (Fin n) (Fin n) ℚ}
    {b x : Fin n → ℚ} (h : solveLin A b = some x) : A.mulVec x = b := by
  have hdet := solveLin_det_ne h
  rw [solveLin, if_neg hdet] at h
  injection h with h
  subst h
  rw [Matrix.mulVec_smul, Matrix.mulVec_mulVec, Matrix.mul_adjugate,
    Matrix.smul_mulVec_assoc, Matrix.one_mulVec, smul_smul,
    inv_mul_cancel₀ hdet, one_smul]

/-- If the matrix is nonsingular, `solveLin` succeeds. -/
theorem solveLin_isSome {n : ℕ} {A : Matrix (Fin n) (Fin n) ℚ}
    (b : Fin n → ℚ) (hdet : A.det ≠ 0) :
    solveLin A b = some (A.det⁻¹ • A.adjugate.mulVec b) := by
  rw [solveLin, if_neg hdet]

/-- State of a `KernelRidgeRegression` instance (`models.py` lines 4-20):
the kernel function and `Lambda` fixed at construction, plus the mutable
`Data`/`Alpha` fields (`None` before training, hence `Option`; the training
size `n` is chosen at `train` time, hence the `Σ`). -/
structure KRRState (m : ℕ) where
  Kernel : KernelFun m
  Lambda : ℚ
  Data : Option (Σ n : ℕ, Matrix (Fin n) (Fin m) ℚ)
  Alpha : Option (Σ n : ℕ, Fin n → ℚ)

/-- `KernelRidgeRegression.__init__`: stores the kernel and `Lambda`
unconditionally (the source performs no validation of `Lambda`) and leaves
`Data`/`Alpha` unset.  The banner `print` is pure observability and is not
modelled. -/
def KRRState.init {m : ℕ} (kernelFunc : KernelFun m) (lam : ℚ) : KRRState m :=
  ⟨kernelFunc, lam, none, none⟩

/-- `KernelRidgeRegression.reset`: clears `Alpha` and `Data`. -/
def KRRState.reset {m : ℕ} (st : KRRState m) : KRRState m :=
  { st with Alpha := none, Data := none }

/-- `KernelRidgeRegression.train` (lines 26-40).  Returns the post-call
state and the raised exception, if any.  Faithful to the source's order:
`self.Data = X` happens first, then `K = Kernel(X, X)`, then
`self.Alpha = np.linalg.solve(K + Lambda*n*I, y)`; a singular solve raises
after `Data` has already been overwritten, leaving `Alpha` untouched. -/
def KRRState.train {m n : ℕ} (st : KRRState m) (X : Matrix (Fin n) (Fin m) ℚ)
    (y : Fin n → ℚ) : KRRState m × Option PyError :=
  let st₁ := { st with Data := some ⟨n, X⟩ }
  let K := st.Kernel n n X X
  match solveLin (K + (st.Lambda * (n : ℚ)) • (1 : Matrix (Fin n) (Fin n) ℚ)) y with
  | none => (st₁, some .linAlgError)
  | some α => ({ st₁ with Alpha := some ⟨n, α⟩ }, none)

/-- `KernelRidgeRegression.predict` (lines 42-56).  The source performs no
trained-state check: with `Data`/`Alpha` still `None` the kernel call or the
matrix product raises an untyped error, modelled as `noneTypeError`; a size
mismatch between stored `Data` and `Alpha` (impossible after a successful
`train`) is a numpy shape failure.  Otherwise returns
`Kernel(X, Data) · Alpha`. -/
def KRRState.predict {m n' : ℕ} (st : KRRState m)
    (X : Matrix (Fin n') (Fin m) ℚ) : Except PyError (Fin n' → ℚ) :=
  match st.Data, st.Alpha with
  | some ⟨nd, D⟩, some ⟨na, A⟩ =>
    if h : na = nd then
      .ok ((st.Kernel n' nd X D).mulVec (fun i => A (Fin.cast h.symm i)))
    else .error .shapeError
  | _, _ => .error .noneTypeError

/-- State of a `KernelLogisticRegression` instance (lines 59-87): kernel,
`Lambda`, `tol`, `max_iter`, `threshold` fixed at construction, mutable
`Data`/`Alpha`. -/
structure KLRState (m : ℕ) where
  Kernel : KernelFun m
  Lambda : ℚ
  tol : ℚ
  maxIter : ℕ
  threshold : ℚ
  Data : Option (Σ n : ℕ, Matrix (Fin n) (Fin m) ℚ)
  Alpha : Option (Σ n : ℕ, Fin n → ℚ)

/-- `KernelLogisticRegression.__init__`: stores everything unconditionally
(the source performs no hyperparameter validation). -/
def KLRState.init {m : ℕ} (kernelFunc : KernelFun m) (lam tolerance : ℚ)
    (maxIterations : ℕ) (thr : ℚ) : KLRState m :=
  ⟨kernelFunc, lam, tolerance, maxIterations, thr, none, none⟩

/-- `KernelLogisticRegression.reset`: clears `Alpha` and `Data`. -/
def KLRState.reset {m : ℕ} (st : KLRState m) : KLRState m :=
  { st with Alpha := none, Data := none }

/-- `KernelLogisticRegression.loss` (lines 93-97): given `s` (flattened),
returns the pair `(P, W) = (diag(l1), diag(l2))` with
`l1 = -1/(1+exp(s))` and `l2 = exp(s)/(1+exp(s))²`; `ex` models `np.exp`. -/
def KLRloss {n : ℕ} (ex : ℚ → ℚ) (s : Fin n → ℚ) :
    Matrix (Fin n) (Fin n) ℚ × Matrix (Fin n) (Fin n) ℚ :=
  (Matrix.diagonal fun i => -1 / (1 + ex (s i)),
   Matrix.diagonal fun i => ex (s i) / (1 + ex (s i)) ^ 2)

/-- One Newton/IRLS solve of the loop body (lines 117-120): from
`alpha_old` compute `m = K·alpha_old`, `(P, W) = loss(y ⊙ m)`,
`z = W·m − P·y`, and solve `(W·K + Lambda·n·I)·alpha_new = z`. -/
def klrStep {n : ℕ} (ex : ℚ → ℚ) (K : Matrix (Fin n) (Fin n) ℚ)
    (lam : ℚ) (y : Fin n → ℚ) (alphaOld : Fin n → ℚ) :
    Option (Fin n → ℚ) :=
  let mv := K.mulVec alphaOld
  let PW := KLRloss ex (fun i => y i * mv i)
  let z := PW.2.mulVec mv - PW.1.mulVec y
  solveLin (PW.2 * K + (lam * (n : ℚ)) • (1 : Matrix (Fin n) (Fin n) ℚ)) z

/-- Observable result of the `for` loop of `KernelLogisticRegression.train`:
the values of the Python variables `alpha_new`, `error` and `step` after the
loop exits (by `break` or by exhausting `range(max_iter)`). -/
structure LoopOut (n : ℕ) where
  alphaNew : Fin n → ℚ
  error : ℚ
  lastStep : ℕ

/-- The `for step in range(max_iter)` loop of lines 116-127, with
`remaining` iterations left and `step` the current Python loop index
(`remaining + step = max_iter` at every call).  `sq` models the square root
inside `np.linalg.norm`, so `error = sq (Σ (alpha_new − alpha_old)²)`.
With `remaining = 0` at the top call (`max_iter = 0`) the loop body never
runs and line 129 raises `NameError` (`step` unbound). -/
def klrGo {n : ℕ} (ex sq : ℚ → ℚ) (K : Matrix (Fin n) (Fin n) ℚ)
    (lam tolerance : ℚ) (y : Fin n → ℚ) :
    ℕ → ℕ → (Fin n → ℚ) → Except PyError (LoopOut n)
  | 0, _, _ => .error .nameError
  | r + 1, step, alphaOld =>
    match klrStep ex K lam y alphaOld with
    | none => .error .linAlgError
    | some alphaNew =>
      let err := sq (∑ i, (alphaNew i - alphaOld i) ^ 2)
      if err < tolerance then .ok ⟨alphaNew, err, step⟩
      else if r = 0 then .ok ⟨alphaNew, err, step⟩
      else klrGo ex sq K lam tolerance y r (step + 1) alphaNew

/-- `KernelLogisticRegression.train` (lines 99-132).  Returns the post-call
state, the raised exception (if any), and whether the non-convergence
warning of lines 129-130 was printed:
`(step == max_iter - 1) and (error > tol)`.  Faithful to the source's
order: `self.Data = X` precedes the loop, `self.Alpha = alpha_new` follows
the warning check; a singular solve (or `max_iter = 0`) raises after `Data`
was overwritten, leaving `Alpha` untouched. -/
def KLRState.train {m n : ℕ} (ex sq : ℚ → ℚ) (st : KLRState m)
    (X : Matrix (Fin n) (Fin m) ℚ) (y : Fin n → ℚ) :
    KLRState m × Option PyError × Bool :=
  let st₁ := { st with Data := some ⟨n, X⟩ }
  let K := st.Kernel n n X X
  match klrGo ex sq K st.Lambda st.tol y st.maxIter 0 (fun _ => 0) with
  | .error e => (st₁, some e, false)
  | .ok out =>
    let warn := decide (out.lastStep = st.maxIter - 1) && decide (out.error > st.tol)
    ({ st₁ with Alpha := some ⟨n, out.alphaNew⟩ }, none, warn)

/-- `KernelLogisticRegression.predict` (lines 134-150): `f = Kernel(X, Data)·Alpha`,
`p = 1/(1+exp(−f))`, `y = (p > threshold).astype(int)`, returns `2*y − 1`.
As in `KRRState.predict`, unset `Data`/`Alpha` surface as `noneTypeError`. -/
def KLRState.predict {m n' : ℕ} (ex : ℚ → ℚ) (st : KLRState m)
    (X : Matrix (Fin n') (Fin m) ℚ) : Except PyError (Fin n' → ℚ) :=
  match st.Data, st.Alpha with
  | some ⟨nd, D⟩, some ⟨na, A⟩ =>
    if h : na = nd then
      let f := (st.Kernel n' nd X D).mulVec (fun i => A (Fin.cast h.symm i))
      .ok (fun i => 2 * (if 1 / (1 + ex (-(f i))) > st.threshold then (1 : ℚ) else 0) - 1)
    else .error .shapeError
  | _, _ => .error .noneTypeError

/-- Written from the design text of §4.3: one Newton step at `Alpha_t = a`.
Compute `m = K·a`, `s = y ⊙ m`, `l1_i = -1/(1+exp(s_i))`,
`l2_i = exp(s_i)/(1+exp(s_i))²`, `P = diag(l1)`, `W = diag(l2)`,
`z = W·m − P·y`, and `Alpha_{t+1}` solves `(W·K + Lambda·n·I)·Alpha_{t+1} = z`
(`none` when that system is singular). -/
def specStep {n : ℕ} (ex : ℚ → ℚ) (K : Matrix (Fin n) (Fin n) ℚ)
    (lam : ℚ) (y : Fin n → ℚ) (a : Fin n → ℚ) : Option (Fin n → ℚ) :=
  let mv := K.mulVec a
  let s := fun i => y i * mv i
  let P := Matrix.diagonal fun i => -1 / (1 + ex (s i))
  let W := Matrix.diagonal fun i => ex (s i) / (1 + ex (s i)) ^ 2
  let z := W.mulVec mv - P.mulVec y
  solveLin (W * K + (lam * (n : ℚ)) • (1 : Matrix (Fin n) (Fin n) ℚ)) z

theorem specStep_eq_klrStep {n : ℕ} (ex : ℚ → ℚ)
    (K : Matrix (Fin n) (Fin n) ℚ) (lam : ℚ) (y a : Fin n → ℚ) :
    specStep ex K lam y a = klrStep ex K lam y a := rfl

/-- The Newton iterate sequence seeded at `a₀`: `Alpha_0 = a₀` and
`Alpha_{t+1} = specStep Alpha_t`; `none` from the first singular step on. -/
def specSeqFrom {n : ℕ} (ex : ℚ → ℚ) (K : Matrix (Fin n) (Fin n) ℚ)
    (lam : ℚ) (y : Fin n → ℚ) (a₀ : Fin n → ℚ) : ℕ → Option (Fin n → ℚ)
  | 0 => some a₀
  | t + 1 => (specSeqFrom ex K lam y a₀ t).bind (specStep ex K lam y)

/-- The spec's iterate sequence from `Alpha_0 = 0`. -/
def specSeq {n : ℕ} (ex : ℚ → ℚ) (K : Matrix (Fin n) (Fin n) ℚ)
    (lam : ℚ) (y : Fin n → ℚ) : ℕ → Option (Fin n → ℚ) :=
  specSeqFrom ex K lam y (fun _ => 0)

/-- `error` of iteration `t` of the seeded sequence:
`‖Alpha_{t+1} − Alpha_t‖₂` with `sq` modelling the square root. -/
def errSeqFrom {n : ℕ} (ex sq : ℚ → ℚ) (K : Matrix (Fin n) (Fin n) ℚ)
    (lam : ℚ) (y : Fin n → ℚ) (a₀ : Fin n → ℚ) (t : ℕ) : Option ℚ :=
  match specSeqFrom ex K lam y a₀ t, specSeqFrom ex K lam y a₀ (t + 1) with
  | some a, some b => some (sq (∑ i, (b i - a i) ^ 2))
  | _, _ => none

/-- Iteration `t` (0-based, producing `Alpha_{t+1}` from `Alpha_t`) satisfies
the stopping criterion `error < tol` of the seeded sequence. -/
def stopFrom {n : ℕ} (ex sq : ℚ → ℚ) (K : Matrix (Fin n) (Fin n) ℚ)
    (lam tolerance : ℚ) (y : Fin n → ℚ) (a₀ : Fin n → ℚ) (t : ℕ) : Prop :=
  ∃ e, errSeqFrom ex sq K lam y a₀ t = some e ∧ e < tolerance

/-- `error` of iteration `t` of the sequence seeded at `0`. -/
def errSeq {n : ℕ} (ex sq : ℚ → ℚ) (K : Matrix (Fin n) (Fin n) ℚ)
    (lam : ℚ) (y : Fin n → ℚ) (t : ℕ) : Option ℚ :=
  errSeqFrom ex sq K lam y (fun _ => 0) t

/-- Stopping criterion at iteration `t` of the sequence seeded at `0`. -/
def stopAt {n : ℕ} (ex sq : ℚ → ℚ) (K : Matrix (Fin n) (Fin n) ℚ)
    (lam tolerance : ℚ) (y : Fin n → ℚ) (t : ℕ) : Prop :=
  stopFrom ex sq K lam tolerance y (fun _ => 0) t

theorem specSeqFrom_shift {n : ℕ} (ex : ℚ → ℚ) (K : Matrix (Fin n) (Fin n) ℚ)
    (lam : ℚ) (y : Fin n → ℚ) {a₀ a₁ : Fin n → ℚ}
    (h : specStep ex K lam y a₀ = some a₁) (t : ℕ) :
    specSeqFrom ex K lam y a₀ (t + 1) = specSeqFrom ex K lam y a₁ t := by
  induction t with
  | zero => simp [specSeqFrom, h]
  | succ t ih => rw [specSeqFrom, ih, specSeqFrom]

theorem errSeqFrom_shift {n : ℕ} (ex sq : ℚ → ℚ) (K : Matrix (Fin n) (Fin n) ℚ)
    (lam : ℚ) (y : Fin n → ℚ) {a₀ a₁ : Fin n → ℚ}
    (h : specStep ex K lam y a₀ = some a₁) (t : ℕ) :
    errSeqFrom ex sq K lam y a₀ (t + 1) = errSeqFrom ex sq K lam y a₁ t := by
  rw [errSeqFrom, errSeqFrom, specSeqFrom_shift ex K lam y h t,
    specSeqFrom_shift ex K lam y h (t + 1)]

theorem stopFrom_shift {n : ℕ} (ex sq : ℚ → ℚ) (K : Matrix (Fin n) (Fin n) ℚ)
    (lam tolerance : ℚ) (y : Fin n → ℚ) {a₀ a₁ : Fin n → ℚ}
    (h : specStep ex K lam y a₀ = some a₁) (t : ℕ) :
    stopFrom ex sq K lam tolerance y a₀ (t + 1) ↔
      stopFrom ex sq K lam tolerance y a₁ t := by
  rw [stopFrom, stopFrom, errSeqFrom_shift ex sq K lam y h t]

theorem errSeqFrom_zero {n : ℕ} (ex sq : ℚ → ℚ) (K : Matrix (Fin n) (Fin n) ℚ)
    (lam : ℚ) (y : Fin n → ℚ) {a₀ a₁ : Fin n → ℚ}
    (h : specStep ex K lam y a₀ = some a₁) :
    errSeqFrom ex sq K lam y a₀ 0 = some (sq (∑ i, (a₁ i - a₀ i) ^ 2)) := by
  simp [errSeqFrom, specSeqFrom, h]

/-- Characterization of the training loop: a successful run of `klrGo`
seeded at `a₀` performs `j + 1` Newton iterations for some `j < remaining`,
its result is iterate `j + 1` of the seeded spec sequence, its `error` is
the error of iteration `j`, no earlier iteration satisfied the stopping
criterion, the last iteration either satisfied it or was the last allowed
one, and the Python variable `step` ends at `step₀ + j`. -/
theorem klrGo_ok_characterize {n : ℕ} (ex sq : ℚ → ℚ)
    (K : Matrix (Fin n) (Fin n) ℚ) (lam tolerance : ℚ) (y : Fin n → ℚ) :
    ∀ (r step₀ : ℕ) (a₀ : Fin n → ℚ) (out : LoopOut n),
      klrGo ex sq K lam tolerance y r step₀ a₀ = .ok out →
      ∃ j, j < r ∧
        specSeqFrom ex K lam y a₀ (j + 1) = some out.alphaNew ∧
        errSeqFrom ex sq K lam y a₀ j = some out.error ∧
        (∀ t, t < j → ¬ stopFrom ex sq K lam tolerance y a₀ t) ∧
        (stopFrom ex sq K lam tolerance y a₀ j ∨ j = r - 1) ∧
        out.lastStep = step₀ + j := by
  intro r
  induction r with
  | zero =>
    intro step₀ a₀ out h
    simp [klrGo] at h
  | succ r ih =>
    intro step₀ a₀ out h
    cases hstep : klrStep ex K lam y a₀ with
    | none => simp [klrGo, hstep] at h
    | some aNew =>
      have hspec : specStep ex K lam y a₀ = some aNew := by
        rw [specStep_eq_klrStep]; exact hstep
      have herr0 : errSeqFrom ex sq K lam y a₀ 0 =
          some (sq (∑ i, (aNew i - a₀ i) ^ 2)) :=
        errSeqFrom_zero ex sq K lam y hspec
      simp only [klrGo, hstep] at h
      by_cases hlt : sq (∑ i, (aNew i - a₀ i) ^ 2) < tolerance
      · rw [if_pos hlt] at h
        injection h with h
        subst h
        refine ⟨0, Nat.succ_pos r, ?_, herr0, ?_, ?_, rfl⟩
        · simp [specSeqFrom, hspec]
        · intro t ht; omega
        · exact Or.inl ⟨_, herr0, hlt⟩
      · rw [if_neg hlt] at h
        have hnostop0 : ¬ stopFrom ex sq K lam tolerance y a₀ 0 := by
          rintro ⟨e, he, helt⟩
          rw [herr0] at he
          injection he with he
          exact hlt (he ▸ helt)
        by_cases hr : r = 0
        · subst hr
          rw [if_pos rfl] at h
          injection h with h
          subst h
          refine ⟨0, Nat.one_pos, ?_, herr0, ?_, Or.inr rfl, rfl⟩
          · simp [specSeqFrom, hspec]
          · intro t ht; omega
        · rw [if_neg hr] at h
          obtain ⟨j, hjr, hseq, herr, hnostop, hlast, hstepEq⟩ :=
            ih (step₀ + 1) aNew out h
          refine ⟨j + 1, by omega, ?_, ?_, ?_, ?_, by omega⟩
          · rw [specSeqFrom_shift ex K lam y hspec (j + 1)]; exact hseq
          · rw [errSeqFrom_shift ex sq K lam y hspec j]; exact herr
          · intro t ht
            cases t with
            | zero => exact hnostop0
            | succ t =>
              rw [stopFrom_shift ex sq K lam tolerance y hspec t]
              exact hnostop t (by omega)
          · rcases hlast with hstop | hj
            · exact Or.inl ((stopFrom_shift ex sq K lam tolerance y hspec j).mpr hstop)
            · exact Or.inr (by omega)

/-- Design §4.3 step 2b: the diagonal second-derivative matrix
`W = diag(l2)`, `l2_i = exp(s_i)/(1+exp(s_i))²` at `s = y ⊙ (K·a)`. -/
def specW {n : ℕ} (ex : ℚ → ℚ) (K : Matrix (Fin n) (Fin n) ℚ)
    (y a : Fin n → ℚ) : Matrix (Fin n) (Fin n) ℚ :=
  Matrix.diagonal fun i =>
    ex (y i * K.mulVec a i) / (1 + ex (y i * K.mulVec a i)) ^ 2

/-- Design §4.3 step 2b: the diagonal first-derivative matrix
`P = diag(l1)`, `l1_i = -1/(1+exp(s_i))` at `s = y ⊙ (K·a)`. -/
def specP {n : ℕ} (ex : ℚ → ℚ) (K : Matrix (Fin n) (Fin n) ℚ)
    (y a : Fin n → ℚ) : Matrix (Fin n) (Fin n) ℚ :=
  Matrix.diagonal fun i => -1 / (1 + ex (y i * K.mulVec a i))

/-- Design §4.3 step 2c: the working response `z = W·m − P·y` at
`m = K·a`. -/
def specZ {n : ℕ} (ex : ℚ → ℚ) (K : Matrix (Fin n) (Fin n) ℚ)
    (y a : Fin n → ℚ) : Fin n → ℚ :=
  (specW ex K y a).mulVec (K.mulVec a) - (specP ex K y a).mulVec y

/-- Design §4.3 step 2d: the coefficient matrix `W·K + Lambda·n·I` of the
regularized weighted system. -/
def specMat {n : ℕ} (ex : ℚ → ℚ) (K : Matrix (Fin n) (Fin n) ℚ)
    (lam : ℚ) (y a : Fin n → ℚ) : Matrix (Fin n) (Fin n) ℚ :=
  specW ex K y a * K + (lam * (n : ℚ)) • (1 : Matrix (Fin n) (Fin n) ℚ)

theorem specStep_eq_solveLin {n : ℕ} (ex : ℚ → ℚ)
    (K : Matrix (Fin n) (Fin n) ℚ) (lam : ℚ) (y a : Fin n → ℚ) :
    specStep ex K lam y a = solveLin (specMat ex K lam y a) (specZ ex K y a) :=
  rfl

theorem specSeq_consecutive {n : ℕ} (ex : ℚ → ℚ)
    (K : Matrix (Fin n) (Fin n) ℚ) (lam : ℚ) (y : Fin n → ℚ)
    {t : ℕ} {a b : Fin n → ℚ}
    (ht : specSeq ex K lam y t = some a)
    (ht1 : specSeq ex K lam y (t + 1) = some b) :
    specStep ex K lam y a = some b := by
  rw [specSeq, specSeqFrom, ← specSeq, ht] at ht1
  simpa using ht1

/-- Unfolding of a successful `KLRState.train` run: the loop returned `ok`,
`Data`/`Alpha` are overwritten and the warning flag is the source's
post-loop test. -/
theorem klr_train_ok_cases {m n : ℕ} (ex sq : ℚ → ℚ) (st : KLRState m)
    (X : Matrix (Fin n) (Fin m) ℚ) (y : Fin n → ℚ)
    (h : (KLRState.train ex sq st X y).2.1 = none) :
    ∃ out, klrGo ex sq (st.Kernel n n X X) st.Lambda st.tol y
        st.maxIter 0 (fun _ => 0) = .ok out ∧
      KLRState.train ex sq st X y =
        ({ st with Data := some ⟨n, X⟩, Alpha := some ⟨n, out.alphaNew⟩ },
          none,
          decide (out.lastStep = st.maxIter - 1) && decide (out.error > st.tol)) := by
  cases hgo : klrGo ex sq (st.Kernel n n X X) st.Lambda st.tol y
      st.maxIter 0 (fun _ => 0) with
  | error e => simp [KLRState.train, hgo] at h
  | ok out =>
    refine ⟨out, rfl, ?_⟩
    simp only [KLRState.train, hgo]

/-- C1: every successful `KernelLogisticRegression.train(X, y)` run starts
from `Alpha_0 = 0`; every consecutive pair of iterates of the Newton
sequence satisfies the regularized weighted system
`(W·K + Lambda·n·I)·Alpha_{t+1} = z` with `P = diag(l1)`, `W = diag(l2)`,
`l1_i = -1/(1+exp(s_i))`, `l2_i = exp(s_i)/(1+exp(s_i))²` at `s = y ⊙ m`,
`m = K·Alpha_t`, `z = W·m − P·y`; and the stored `Alpha` is iterate `T+1`
for some `T < max_iter` such that no iteration before `T` satisfied
`‖Alpha_{t+1} − Alpha_t‖₂ < tol` and iteration `T` either satisfied it
(early stop) or was the last allowed one. -/
theorem C1_train_newton_iteration {m n : ℕ} (ex sq : ℚ → ℚ)
    (st : KLRState m) (X : Matrix (Fin n) (Fin m) ℚ) (y : Fin n → ℚ)
    (h : (KLRState.train ex sq st X y).2.1 = none) :
    specSeq ex (st.Kernel n n X X) st.Lambda y 0 = some (fun _ => 0) ∧
    (∀ t a b, specSeq ex (st.Kernel n n X X) st.Lambda y t = some a →
      specSeq ex (st.Kernel n n X X) st.Lambda y (t + 1) = some b →
      (specMat ex (st.Kernel n n X X) st.Lambda y a).mulVec b =
        specZ ex (st.Kernel n n X X) y a) ∧
    ∃ T, T < st.maxIter ∧ ∃ α,
      (KLRState.train ex sq st X y).1.Alpha = some ⟨n, α⟩ ∧
      specSeq ex (st.Kernel n n X X) st.Lambda y (T + 1) = some α ∧
      (∀ t, t < T →
        ¬ stopAt ex sq (st.Kernel n n X X) st.Lambda st.tol y t) ∧
      (stopAt ex sq (st.Kernel n n X X) st.Lambda st.tol y T ∨
        T = st.maxIter - 1) := by
  obtain ⟨out, hgo, heq⟩ := klr_train_ok_cases ex sq st X y h
  obtain ⟨j, hjr, hseq, herr, hnostop, hlast, -⟩ :=
    klrGo_ok_characterize ex sq (st.Kernel n n X X) st.Lambda st.tol y
      st.maxIter 0 (fun _ => 0) out hgo
  refine ⟨rfl, ?_, j, hjr, out.alphaNew, ?_, hseq, hnostop, hlast⟩
  · intro t a b ht ht1
    have hs := specSeq_consecutive ex _ st.Lambda y ht ht1
    rw [specStep_eq_solveLin] at hs
    exact solveLin_mulVec hs
  · rw [heq]

/-- C3 (amended): for a successful `KernelLogisticRegression.train` run the
non-fatal warning naming `max_iter` is emitted iff no iteration satisfied
`error < tol` AND the final error exceeds `tol` strictly; the post-loop
test `error > self.tol` of line 129 silently drops the `error = tol` case,
in which no iteration converged yet no warning is printed.  In every
successful run the last computed `Alpha` is stored. -/
theorem C3_convergence_warning_iff {m n : ℕ} (ex sq : ℚ → ℚ)
    (st : KLRState m) (X : Matrix (Fin n) (Fin m) ℚ) (y : Fin n → ℚ)
    (h : (KLRState.train ex sq st X y).2.1 = none) :
    ((KLRState.train ex sq st X y).2.2 = true ↔
      ((∀ t, t < st.maxIter →
          ¬ stopAt ex sq (st.Kernel n n X X) st.Lambda st.tol y t) ∧
        ∃ e, errSeq ex sq (st.Kernel n n X X) st.Lambda y
            (st.maxIter - 1) = some e ∧ st.tol < e)) ∧
    ∃ α, (KLRState.train ex sq st X y).1.Alpha = some ⟨n, α⟩ := by
  obtain ⟨out, hgo, heq⟩ := klr_train_ok_cases ex sq st X y h
  obtain ⟨j, hjr, hseq, herr, hnostop, hlast, hstepEq⟩ :=
    klrGo_ok_characterize ex sq (st.Kernel n n X X) st.Lambda st.tol y
      st.maxIter 0 (fun _ => 0) out hgo
  rw [heq]
  simp only [Bool.and_eq_true, decide_eq_true_eq]
  have hstepEq' : out.lastStep = j := by omega
  have herr' : errSeq ex sq (st.Kernel n n X X) st.Lambda y j =
      some out.error := herr
  constructor
  · constructor
    · rintro ⟨hjm, htol⟩
      have hj : j = st.maxIter - 1 := by omega
      constructor
      · intro t ht
        rcases Nat.lt_or_ge t j with htj | htj
        · exact hnostop t htj
        · have htj' : t = j := by omega
          subst htj'
          rintro ⟨e, he, helt⟩
          rw [herr] at he
          injection he with he
          subst he
          exact absurd htol (not_lt.mpr (le_of_lt helt))
      · exact ⟨out.error, hj ▸ herr', htol⟩
    · rintro ⟨hall, e, he, hetol⟩
      have hj : j = st.maxIter - 1 := by
        rcases hlast with hstop | hj
        · exact absurd hstop (hall j hjr)
        · exact hj
      rw [← hj, herr'] at he
      injection he with he
      subst he
      exact ⟨by omega, hetol⟩
  · exact ⟨out.alphaNew, rfl⟩

/-- Unfolding of a successful `KRRState.train` run. -/
theorem krr_train_ok_cases {m n : ℕ} (st : KRRState m)
    (X : Matrix (Fin n) (Fin m) ℚ) (y : Fin n → ℚ)
    (h : (KRRState.train st X y).2 = none) :
    ∃ α, solveLin (st.Kernel n n X X +
        (st.Lambda * (n : ℚ)) • (1 : Matrix (Fin n) (Fin n) ℚ)) y = some α ∧
      KRRState.train st X y =
        ({ st with Data := some ⟨n, X⟩, Alpha := some ⟨n, α⟩ }, none) := by
  cases hs : solveLin (st.Kernel n n X X +
      (st.Lambda * (n : ℚ)) • (1 : Matrix (Fin n) (Fin n) ℚ)) y with
  | none => simp [KRRState.train, hs] at h
  | some α => exact ⟨α, rfl, by simp only [KRRState.train, hs]⟩

/-- `KernelRidgeRegression.predict` on a state with matching stored `Data`
and `Alpha` returns `Kernel(X, Data)·Alpha`. -/
theorem krr_predict_trained {m n' n : ℕ} (st : KRRState m)
    (X : Matrix (Fin n') (Fin m) ℚ) (D : Matrix (Fin n) (Fin m) ℚ)
    (A : Fin n → ℚ) (hD : st.Data = some ⟨n, D⟩)
    (hA : st.Alpha = some ⟨n, A⟩) :
    KRRState.predict st X = .ok ((st.Kernel n' n X D).mulVec A) := by
  simp only [KRRState.predict, hD, hA]
  rw [dif_pos trivial]
  rfl

/-- `KernelLogisticRegression.predict` on a state with matching stored
`Data` and `Alpha` returns `2·(p > threshold) − 1` with
`p = 1/(1+exp(−Kernel(X, Data)·Alpha))`. -/
theorem klr_predict_trained {m n' n : ℕ} (ex : ℚ → ℚ)
    (st : KLRState m) (X : Matrix (Fin n') (Fin m) ℚ)
    (D : Matrix (Fin n) (Fin m) ℚ) (A : Fin n → ℚ)
    (hD : st.Data = some ⟨n, D⟩) (hA : st.Alpha = some ⟨n, A⟩) :
    KLRState.predict ex st X = .ok (fun i =>
      2 * (if 1 / (1 + ex (-((st.Kernel n' n X D).mulVec A i))) > st.threshold
        then (1 : ℚ) else 0) - 1) := by
  simp only [KLRState.predict, hD, hA]
  rw [dif_pos trivial]
  rfl

/-- C2: after a successful `KernelRidgeRegression.train(X, y)` the stored
`Alpha` satisfies `(K + Lambda·n·I)·Alpha = y` with `K = Kernel(X, X)`, and
the stored `Data` equals `X`. -/
theorem C2_krr_train_solves_system {m n : ℕ} (st : KRRState m)
    (X : Matrix (Fin n) (Fin m) ℚ) (y : Fin n → ℚ)
    (h : (KRRState.train st X y).2 = none) :
    ∃ α, (KRRState.train st X y).1.Alpha = some ⟨n, α⟩ ∧
      (st.Kernel n n X X +
        (st.Lambda * (n : ℚ)) • (1 : Matrix (Fin n) (Fin n) ℚ)).mulVec α = y ∧
      (KRRState.train st X y).1.Data = some ⟨n, X⟩ := by
  obtain ⟨α, hs, heq⟩ := krr_train_ok_cases st X y h
  exact ⟨α, by rw [heq], solveLin_mulVec hs, by rw [heq]⟩

/-- C7: for `Lambda = 0` and invertible Gram matrix `K = Kernel(X, X)`,
`KernelRidgeRegression.train(X, y)` succeeds with `K·Alpha = y` exactly,
and `predict` on the training data returns `Kernel(X, Data)·Alpha = y`. -/
theorem C7_ridge_round_trip {m n : ℕ} (st : KRRState m)
    (X : Matrix (Fin n) (Fin m) ℚ) (y : Fin n → ℚ)
    (hl : st.Lambda = 0) (hdet : (st.Kernel n n X X).det ≠ 0) :
    ∃ α, (KRRState.train st X y).2 = none ∧
      (KRRState.train st X y).1.Alpha = some ⟨n, α⟩ ∧
      (st.Kernel n n X X).mulVec α = y ∧
      KRRState.predict (KRRState.train st X y).1 X = .ok y := by
  have hA : st.Kernel n n X X +
      (st.Lambda * (n : ℚ)) • (1 : Matrix (Fin n) (Fin n) ℚ) =
      st.Kernel n n X X := by
    rw [hl, zero_mul, zero_smul, add_zero]
  have hs : solveLin (st.Kernel n n X X +
      (st.Lambda * (n : ℚ)) • (1 : Matrix (Fin n) (Fin n) ℚ)) y =
      some ((st.Kernel n n X X).det⁻¹ •
        (st.Kernel n n X X).adjugate.mulVec y) := by
    rw [hA]; exact solveLin_isSome y hdet
  obtain ⟨α, hs', heq⟩ := krr_train_ok_cases st X y
    (by simp [KRRState.train, hs])
  have hKα : (st.Kernel n n X X).mulVec α = y := by
    have := solveLin_mulVec hs'
    rwa [hA] at this
  refine ⟨α, by rw [heq], by rw [heq], hKα, ?_⟩
  rw [heq, krr_predict_trained _ X X α rfl rfl]
  show Except.ok ((st.Kernel n n X X).mulVec α) = Except.ok y
  rw [hKα]

/-- C4: for a trained `KernelLogisticRegression` (matching stored `Data`
and `Alpha`), `predict(X_new)` computes `f = Kernel(X_new, Data)·Alpha`,
`p = 1/(1+exp(−f))`, returns `+1` exactly where `p > threshold` and `-1`
otherwise, and every returned entry is in `{-1, +1}`. -/
theorem C4_klr_predict_threshold {m n' nd : ℕ} (ex : ℚ → ℚ)
    (st : KLRState m) (X : Matrix (Fin n') (Fin m) ℚ)
    (D : Matrix (Fin nd) (Fin m) ℚ) (A : Fin nd → ℚ)
    (hD : st.Data = some ⟨nd, D⟩) (hA : st.Alpha = some ⟨nd, A⟩) :
    ∃ v, KLRState.predict ex st X = .ok v ∧
      (∀ i, v i =
        if 1 / (1 + ex (-((st.Kernel n' nd X D).mulVec A i))) > st.threshold
        then 1 else -1) ∧
      (∀ i, v i = 1 ∨ v i = -1) := by
  refine ⟨fun i =>
      2 * (if 1 / (1 + ex (-((st.Kernel n' nd X D).mulVec A i))) > st.threshold
        then (1 : ℚ) else 0) - 1,
    klr_predict_trained ex st X D A hD hA, ?_, ?_⟩
  · intro i
    dsimp only
    split_ifs with hp
    · norm_num
    · norm_num
  · intro i
    dsimp only
    split_ifs with hp
    · left; norm_num
    · right; norm_num

/-- The linear kernel `K(X₁, X₂) = X₁ · X₂ᵀ`: the concrete kernel of the
design's test scenarios (§8), used here for concrete instantiations. -/
def linKernel (m : ℕ) : KernelFun m := fun _ _ X₁ X₂ => X₁ * X₂.transpose

theorem solveLin_one {A : Matrix (Fin 1) (Fin 1) ℚ} {b : Fin 1 → ℚ}
    (ha : A 0 0 ≠ 0) : solveLin A b = some (fun i => (A 0 0)⁻¹ * b i) := by
  rw [solveLin, Matrix.det_fin_one, if_neg ha, Matrix.adjugate_fin_one,
    Matrix.one_mulVec]
  rfl

theorem solveLin_one_sing {A : Matrix (Fin 1) (Fin 1) ℚ} {b : Fin 1 → ℚ}
    (ha : A 0 0 = 0) : solveLin A b = none := by
  rw [solveLin, Matrix.det_fin_one, if_pos ha]

theorem linKernel_one_apply (a b : ℚ) :
    linKernel 1 1 1 !![a] !![b] = !![a * b] := by
  funext i j
  fin_cases i
  fin_cases j
  simp [linKernel, Matrix.mul_apply]

theorem add_smul_one_apply (a c : ℚ) :
    (!![a] + c • (1 : Matrix (Fin 1) (Fin 1) ℚ)) 0 0 = a + c := by
  simp [Matrix.add_apply, Matrix.smul_apply, Matrix.one_apply_eq]

/-- One concrete Newton solve on the unit instance (`K = [[1]]`,
`Lambda = 0`, `y = [1]`, `alpha_old = 0`, `exp` evaluated only at `0` where
it equals `1`): the solution is `alpha_new = [2]`. -/
theorem klrStep_unit :
    klrStep (fun _ => 1) !![(1 : ℚ)] 0 ![1] (fun _ => 0) = some (fun _ => 2) := by
  unfold klrStep
  rw [solveLin_one]
  · congr 1
    funext i
    fin_cases i
    norm_num [KLRloss, Matrix.mulVec_diagonal, Pi.sub_apply, Matrix.mulVec,
      Matrix.dotProduct, Fin.sum_univ_one, Matrix.mul_apply,
      Matrix.diagonal_apply_eq, Matrix.one_apply_eq]
  · norm_num [KLRloss, Matrix.mul_apply, Fin.sum_univ_one,
      Matrix.diagonal_apply_eq, Matrix.one_apply_eq, Matrix.mulVec,
      Matrix.dotProduct]

theorem sqrt_err_unit :
    Rat.sqrt (∑ i : Fin 1, ((fun _ => (2 : ℚ)) i - (fun _ => (0 : ℚ)) i) ^ 2) = 2 := by
  rw [Fin.sum_univ_one]
  have h4 : ((fun _ => (2 : ℚ)) (0 : Fin 1) - (fun _ => (0 : ℚ)) (0 : Fin 1)) ^ 2 =
      2 * 2 := by norm_num
  rw [h4, Rat.sqrt_eq]
  norm_num

/-- On the unit instance with `tol > 2` the loop stops by `break` on its
first iteration with `error = 2`. -/
theorem klrGo_unit_converges {tolerance : ℚ} (ht : 2 < tolerance) :
    klrGo (fun _ => 1) Rat.sqrt !![(1 : ℚ)] 0 tolerance ![1] 1 0 (fun _ => 0) =
      .ok ⟨fun _ => 2, 2, 0⟩ := by
  simp only [klrGo, klrStep_unit]
  rw [sqrt_err_unit, if_pos ht]

/-- On the unit instance with `tol = 2` the first iteration has
`error = tol` exactly: no `break`, and `range(1)` is exhausted. -/
theorem klrGo_unit_exact :
    klrGo (fun _ => 1) Rat.sqrt !![(1 : ℚ)] 0 2 ![1] 1 0 (fun _ => 0) =
      .ok ⟨fun _ => 2, 2, 0⟩ := by
  simp only [klrGo, klrStep_unit]
  rw [sqrt_err_unit, if_neg (by norm_num : ¬ (2 : ℚ) < 2), if_pos trivial]

theorem klr_train_unit_converges {tolerance : ℚ} (ht : 2 < tolerance) :
    KLRState.train (fun _ => 1) Rat.sqrt
      (KLRState.init (linKernel 1) 0 tolerance 1 (1 / 2)) !![(1 : ℚ)] ![1] =
    ({ Kernel := linKernel 1, Lambda := 0, tol := tolerance, maxIter := 1,
       threshold := 1 / 2, Data := some ⟨1, !![1]⟩,
       Alpha := some ⟨1, fun _ => 2⟩ }, none, false) := by
  have hK : linKernel 1 1 1 !![(1 : ℚ)] !![1] = !![1] := by
    rw [linKernel_one_apply, one_mul]
  simp only [KLRState.train, KLRState.init, hK, klrGo_unit_converges ht]
  simp only [Prod.mk.injEq, and_true, true_and]
  have hng : ¬ ((2 : ℚ) > tolerance) := by linarith
  simp [hng]

theorem klr_train_unit_exact :
    KLRState.train (fun _ => 1) Rat.sqrt
      (KLRState.init (linKernel 1) 0 2 1 (1 / 2)) !![(1 : ℚ)] ![1] =
    ({ Kernel := linKernel 1, Lambda := 0, tol := 2, maxIter := 1,
       threshold := 1 / 2, Data := some ⟨1, !![1]⟩,
       Alpha := some ⟨1, fun _ => 2⟩ }, none, false) := by
  have hK : linKernel 1 1 1 !![(1 : ℚ)] !![1] = !![1] := by
    rw [linKernel_one_apply, one_mul]
  simp only [KLRState.train, KLRState.init, hK, klrGo_unit_exact]
  norm_num

/-- `KernelRidgeRegression.train` preserves the configuration and always
overwrites `Data` (line 36 precedes the solve), whether or not the solve
succeeds. -/
theorem krr_train_proj {m n : ℕ} (st : KRRState m)
    (X : Matrix (Fin n) (Fin m) ℚ) (y : Fin n → ℚ) :
    (st.train X y).1.Kernel = st.Kernel ∧ (st.train X y).1.Lambda = st.Lambda ∧
    (st.train X y).1.Data = some ⟨n, X⟩ := by
  cases hs : solveLin (st.Kernel n n X X +
      (st.Lambda * (n : ℚ)) • (1 : Matrix (Fin n) (Fin n) ℚ)) y with
  | none => simp [KRRState.train, hs]
  | some α => simp [KRRState.train, hs]

/-- A failing `KernelRidgeRegression.train` leaves `Alpha` untouched. -/
theorem krr_train_fail_alpha {m n : ℕ} (st : KRRState m)
    (X : Matrix (Fin n) (Fin m) ℚ) (y : Fin n → ℚ) (e : PyError)
    (h : (st.train X y).2 = some e) : (st.train X y).1.Alpha = st.Alpha := by
  cases hs : solveLin (st.Kernel n n X X +
      (st.Lambda * (n : ℚ)) • (1 : Matrix (Fin n) (Fin n) ℚ)) y with
  | none => simp [KRRState.train, hs]
  | some α => simp [KRRState.train, hs] at h

/-- A singular solve makes `KernelRidgeRegression.train` raise
`LinAlgError`. -/
theorem krr_train_sing {m n : ℕ} (st : KRRState m)
    (X : Matrix (Fin n) (Fin m) ℚ) (y : Fin n → ℚ)
    (h : solveLin (st.Kernel n n X X +
      (st.Lambda * (n : ℚ)) • (1 : Matrix (Fin n) (Fin n) ℚ)) y = none) :
    (st.train X y).2 = some .linAlgError := by
  simp [KRRState.train, h]

/-- `KernelLogisticRegression.train` preserves the configuration and always
overwrites `Data` (line 109 precedes the loop). -/
theorem klr_train_proj {m n : ℕ} (ex sq : ℚ → ℚ) (st : KLRState m)
    (X : Matrix (Fin n) (Fin m) ℚ) (y : Fin n → ℚ) :
    (KLRState.train ex sq st X y).1.Kernel = st.Kernel ∧
    (KLRState.train ex sq st X y).1.Lambda = st.Lambda ∧
    (KLRState.train ex sq st X y).1.tol = st.tol ∧
    (KLRState.train ex sq st X y).1.maxIter = st.maxIter ∧
    (KLRState.train ex sq st X y).1.threshold = st.threshold ∧
    (KLRState.train ex sq st X y).1.Data = some ⟨n, X⟩ := by
  cases hgo : klrGo ex sq (st.Kernel n n X X) st.Lambda st.tol y
      st.maxIter 0 (fun _ => 0) with
  | error e => simp [KLRState.train, hgo]
  | ok out => simp [KLRState.train, hgo]

/-- A failing `KernelLogisticRegression.train` leaves `Alpha` untouched. -/
theorem klr_train_fail_alpha {m n : ℕ} (ex sq : ℚ → ℚ) (st : KLRState m)
    (X : Matrix (Fin n) (Fin m) ℚ) (y : Fin n → ℚ) (e : PyError)
    (h : (KLRState.train ex sq st X y).2.1 = some e) :
    (KLRState.train ex sq st X y).1.Alpha = st.Alpha := by
  cases hgo : klrGo ex sq (st.Kernel n n X X) st.Lambda st.tol y
      st.maxIter 0 (fun _ => 0) with
  | error er => simp [KLRState.train, hgo]
  | ok out => simp [KLRState.train, hgo] at h

/-- Concrete successful ridge training run on the unit instance. -/
theorem krr_train_unit_ok :
    ((KRRState.init (linKernel 1) 0).train !![(1 : ℚ)] ![1]).2 = none := by
  have hK : linKernel 1 1 1 !![(1 : ℚ)] !![1] = !![1] := by
    rw [linKernel_one_apply, one_mul]
  simp only [KRRState.train, KRRState.init, hK]
  rw [solveLin_one (by rw [add_smul_one_apply]; norm_num)]

/-- Retraining the unit-instance ridge estimator on `X = [[0]]` (zero Gram
matrix, `Lambda = 0`) fails with the singular-system error. -/
theorem krr_fail_unit :
    ((((KRRState.init (linKernel 1) 0).train !![(1 : ℚ)] ![1]).1).train
      !![(0 : ℚ)] ![1]).2 = some PyError.linAlgError := by
  have hker := (krr_train_proj (KRRState.init (linKernel 1) 0) !![(1 : ℚ)] ![1]).1
  have hlam := (krr_train_proj (KRRState.init (linKernel 1) 0) !![(1 : ℚ)] ![1]).2.1
  refine krr_train_sing _ _ _ ?_
  rw [hker, hlam]
  simp only [KRRState.init]
  rw [linKernel_one_apply, mul_zero]
  exact solveLin_one_sing (by rw [add_smul_one_apply]; norm_num)

/-- Concrete fatally failing logistic training run: `max_iter = 0` makes
line 129 raise `NameError` after `Data` was overwritten. -/
theorem klr_fail_unit :
    (KLRState.train (fun _ => 1) Rat.sqrt
      (KLRState.init (linKernel 1) 0 1 0 (1 / 2)) !![(1 : ℚ)] ![1]).2.1 =
      some PyError.nameError := by
  simp [KLRState.train, KLRState.init, klrGo]

/-- C5 (counterexample): `predict` on a freshly constructed
`KernelRidgeRegression` fails, but with the untyped error arising from the
unset (`None`) `Data`/`Alpha`, not with a `NotTrainedError` — no such
error type exists in the code. -/
theorem C5_counterexample :
    KRRState.predict (KRRState.init (linKernel 1) 0) !![(1 : ℚ)] =
      Except.error PyError.noneTypeError ∧
    (Except.error PyError.noneTypeError ≠
      (Except.error PyError.notTrainedErr : Except PyError (Fin 1 → ℚ))) := by
  refine ⟨rfl, ?_⟩
  intro h
  injection h with h
  exact PyError.noConfusion h

/-- C5 (amended): `predict` before any successful `train`, or after
`reset`, fails for both estimators — but with the untyped error from
operating on the unset (`None`) `Data`/`Alpha` fields (a `TypeError` in
Python), not with a `NotTrainedError`; the code performs no trained-state
check and defines no `NotTrainedError`. -/
theorem C5_amended_untyped_failure {m n' : ℕ} (k : KernelFun m)
    (lam tolerance thr : ℚ) (mi : ℕ) (X : Matrix (Fin n') (Fin m) ℚ)
    (ex : ℚ → ℚ) (stR : KRRState m) (stL : KLRState m) :
    KRRState.predict (KRRState.init k lam) X = .error .noneTypeError ∧
    KRRState.predict stR.reset X = .error .noneTypeError ∧
    KLRState.predict ex (KLRState.init k lam tolerance mi thr) X =
      .error .noneTypeError ∧
    KLRState.predict ex stL.reset X = .error .noneTypeError :=
  ⟨rfl, rfl, rfl, rfl⟩

/-- C6 (counterexample): a previously trained ridge estimator retrained on
a singular instance raises `LinAlgError`, yet its stored `Data` is no
longer the old training set: line 36 already overwrote it. -/
theorem C6_counterexample :
    ((((KRRState.init (linKernel 1) 0).train !![(1 : ℚ)] ![1]).1).train
        !![(0 : ℚ)] ![1]).2 = some PyError.linAlgError ∧
    ((((KRRState.init (linKernel 1) 0).train !![(1 : ℚ)] ![1]).1).train
        !![(0 : ℚ)] ![1]).1.Data ≠
      (((KRRState.init (linKernel 1) 0).train !![(1 : ℚ)] ![1]).1).Data := by
  refine ⟨krr_fail_unit, ?_⟩
  have h₁ := (krr_train_proj (((KRRState.init (linKernel 1) 0).train
    !![(1 : ℚ)] ![1]).1) !![(0 : ℚ)] ![1]).2.2
  have h₂ := (krr_train_proj (KRRState.init (linKernel 1) 0)
    !![(1 : ℚ)] ![1]).2.2
  rw [h₁, h₂]
  intro h
  injection h with h
  injection h with h1 h2
  have h00 := congrFun (congrFun h2 0) 0
  norm_num at h00

/-- C6 (amended): for both estimators a fatally failing `train` leaves
`Alpha` and the configuration untouched, but `Data` has already been
overwritten with the new `X` — the `self.Data = X` assignment precedes
every linear solve, so prior state is partially overwritten. -/
theorem C6_amended_partial_overwrite {m₁ n₁ m₂ n₂ : ℕ}
    (st : KRRState m₁) (X : Matrix (Fin n₁) (Fin m₁) ℚ) (y : Fin n₁ → ℚ)
    (e : PyError) (ex sq : ℚ → ℚ) (stL : KLRState m₂)
    (X₂ : Matrix (Fin n₂) (Fin m₂) ℚ) (y₂ : Fin n₂ → ℚ) (e₂ : PyError)
    (h : (st.train X y).2 = some e)
    (h₂ : (KLRState.train ex sq stL X₂ y₂).2.1 = some e₂) :
    (st.train X y).1.Alpha = st.Alpha ∧
    (st.train X y).1.Data = some ⟨n₁, X⟩ ∧
    (st.train X y).1.Kernel = st.Kernel ∧
    (st.train X y).1.Lambda = st.Lambda ∧
    (KLRState.train ex sq stL X₂ y₂).1.Alpha = stL.Alpha ∧
    (KLRState.train ex sq stL X₂ y₂).1.Data = some ⟨n₂, X₂⟩ :=
  ⟨krr_train_fail_alpha st X y e h, (krr_train_proj st X y).2.2,
    (krr_train_proj st X y).1, (krr_train_proj st X y).2.1,
    klr_train_fail_alpha ex sq stL X₂ y₂ e₂ h₂,
    (klr_train_proj ex sq stL X₂ y₂).2.2.2.2.2⟩

/-- C6 witness: the amended statement instantiated on the two concrete
failing runs. -/
theorem C6_witness :
    ((((KRRState.init (linKernel 1) 0).train !![(1 : ℚ)] ![1]).1).train
        !![(0 : ℚ)] ![1]).2 = some PyError.linAlgError ∧
    (KLRState.train (fun _ => 1) Rat.sqrt
        (KLRState.init (linKernel 1) 0 1 0 (1 / 2)) !![(1 : ℚ)] ![1]).2.1 =
      some PyError.nameError ∧
    ((((KRRState.init (linKernel 1) 0).train !![(1 : ℚ)] ![1]).1).train
        !![(0 : ℚ)] ![1]).1.Alpha =
      (((KRRState.init (linKernel 1) 0).train !![(1 : ℚ)] ![1]).1).Alpha :=
  ⟨krr_fail_unit, klr_fail_unit,
    (C6_amended_partial_overwrite _ !![(0 : ℚ)] ![1] PyError.linAlgError
      (fun _ => 1) Rat.sqrt (KLRState.init (linKernel 1) 0 1 0 (1 / 2))
      !![(1 : ℚ)] ![1] PyError.nameError krr_fail_unit klr_fail_unit).1⟩

/-- C8 (counterexample): constructing either estimator with invalid
hyperparameters (`Lambda = -1`, and for the logistic estimator `tol = 0`,
`max_iter = 0`, `threshold = 2 ∉ [0,1]`) succeeds and returns an
uninitialized handle storing those values — no `ConfigError` is raised. -/
theorem C8_counterexample :
    (KRRState.init (linKernel 1) (-1)).Lambda = -1 ∧
    (KRRState.init (linKernel 1) (-1)).Data = none ∧
    (KRRState.init (linKernel 1) (-1)).Alpha = none ∧
    (KLRState.init (linKernel 1) (-1) 0 0 2).Lambda = -1 ∧
    (KLRState.init (linKernel 1) (-1) 0 0 2).tol = 0 ∧
    (KLRState.init (linKernel 1) (-1) 0 0 2).maxIter = 0 ∧
    (KLRState.init (linKernel 1) (-1) 0 0 2).threshold = 2 ∧
    (KLRState.init (linKernel 1) (-1) 0 0 2).Data = none ∧
    (KLRState.init (linKernel 1) (-1) 0 0 2).Alpha = none :=
  ⟨rfl, rfl, rfl, rfl, rfl, rfl, rfl, rfl, rfl⟩

/-- C8 (amended): construction performs no hyperparameter validation for
either estimator: any `Lambda`, `tol`, `max_iter`, `threshold` are
accepted and stored unchanged in an uninitialized handle; no `ConfigError`
exists in the code. -/
theorem C8_amended_no_validation {m : ℕ} (k : KernelFun m)
    (lam tolerance thr : ℚ) (mi : ℕ) :
    KRRState.init k lam = ⟨k, lam, none, none⟩ ∧
    KLRState.init k lam tolerance mi thr = ⟨k, lam, tolerance, mi, thr, none, none⟩ :=
  ⟨rfl, rfl⟩

/-- C10: every public operation of both estimators leaves the
configuration (kernel, `Lambda`, and for the logistic estimator `tol`,
`max_iter`, `threshold`) exactly as given at construction; `train`
overwrites `Data` (and, when it succeeds, `Alpha`), `reset` sets both back
to the uninitialized value.  `predict` is modelled as a pure function of
the state (`KRRState.predict`, `KLRState.predict` return no state), which
is the code's behaviour: it assigns no field of `self`. -/
theorem C10_config_frame {m₁ n₁ m₂ n₂ : ℕ}
    (st : KRRState m₁) (X : Matrix (Fin n₁) (Fin m₁) ℚ) (y : Fin n₁ → ℚ)
    (ex sq : ℚ → ℚ) (stL : KLRState m₂)
    (X₂ : Matrix (Fin n₂) (Fin m₂) ℚ) (y₂ : Fin n₂ → ℚ) :
    (st.train X y).1.Kernel = st.Kernel ∧
    (st.train X y).1.Lambda = st.Lambda ∧
    (st.train X y).1.Data = some ⟨n₁, X⟩ ∧
    ((st.train X y).2 = none → ∃ α, (st.train X y).1.Alpha = some ⟨n₁, α⟩) ∧
    st.reset.Kernel = st.Kernel ∧ st.reset.Lambda = st.Lambda ∧
    st.reset.Data = none ∧ st.reset.Alpha = none ∧
    (KLRState.train ex sq stL X₂ y₂).1.Kernel = stL.Kernel ∧
    (KLRState.train ex sq stL X₂ y₂).1.Lambda = stL.Lambda ∧
    (KLRState.train ex sq stL X₂ y₂).1.tol = stL.tol ∧
    (KLRState.train ex sq stL X₂ y₂).1.maxIter = stL.maxIter ∧
    (KLRState.train ex sq stL X₂ y₂).1.threshold = stL.threshold ∧
    (KLRState.train ex sq stL X₂ y₂).1.Data = some ⟨n₂, X₂⟩ ∧
    ((KLRState.train ex sq stL X₂ y₂).2.1 = none →
      ∃ α, (KLRState.train ex sq stL X₂ y₂).1.Alpha = some ⟨n₂, α⟩) ∧
    stL.reset.Kernel = stL.Kernel ∧ stL.reset.Lambda = stL.Lambda ∧
    stL.reset.tol = stL.tol ∧ stL.reset.maxIter = stL.maxIter ∧
    stL.reset.threshold = stL.threshold ∧
    stL.reset.Data = none ∧ stL.reset.Alpha = none := by
  refine ⟨(krr_train_proj st X y).1, (krr_train_proj st X y).2.1,
    (krr_train_proj st X y).2.2, ?_, rfl, rfl, rfl, rfl,
    (klr_train_proj ex sq stL X₂ y₂).1,
    (klr_train_proj ex sq stL X₂ y₂).2.1,
    (klr_train_proj ex sq stL X₂ y₂).2.2.1,
    (klr_train_proj ex sq stL X₂ y₂).2.2.2.1,
    (klr_train_proj ex sq stL X₂ y₂).2.2.2.2.1,
    (klr_train_proj ex sq stL X₂ y₂).2.2.2.2.2, ?_,
    rfl, rfl, rfl, rfl, rfl, rfl, rfl⟩
  · intro h
    obtain ⟨α, hs, heq⟩ := krr_train_ok_cases st X y h
    exact ⟨α, by rw [heq]⟩
  · intro h
    obtain ⟨out, hgo, heq⟩ := klr_train_ok_cases ex sq stL X₂ y₂ h
    exact ⟨out.alphaNew, by rw [heq]⟩

/-- C3 (counterexample): on the unit instance with `tol = 2` and
`max_iter = 1` the single iteration has `error = tol` exactly: training
completes without any iteration satisfying `error < tol`, yet the warning
is not printed, because line 129 tests `error > self.tol` strictly. -/
theorem C3_counterexample :
    (KLRState.train (fun _ => 1) Rat.sqrt
      (KLRState.init (linKernel 1) 0 2 1 (1 / 2)) !![(1 : ℚ)] ![1]).2.1 = none ∧
    (∀ t, t < 1 → ¬ stopAt (fun _ => 1) Rat.sqrt !![(1 : ℚ)] 0 2 ![1] t) ∧
    (KLRState.train (fun _ => 1) Rat.sqrt
      (KLRState.init (linKernel 1) 0 2 1 (1 / 2)) !![(1 : ℚ)] ![1]).2.2 = false := by
  have hstep : specStep (fun _ => 1) !![(1 : ℚ)] 0 ![1] (fun _ => 0) =
      some (fun _ => 2) := by
    rw [specStep_eq_klrStep]; exact klrStep_unit
  have herr : errSeqFrom (fun _ => 1) Rat.sqrt !![(1 : ℚ)] 0 ![1]
      (fun _ => 0) 0 = some 2 := by
    rw [errSeqFrom_zero (fun _ => 1) Rat.sqrt !![(1 : ℚ)] 0 ![1] hstep,
      sqrt_err_unit]
  refine ⟨by rw [klr_train_unit_exact], ?_, by rw [klr_train_unit_exact]⟩
  intro t ht
  have ht0 : t = 0 := by omega
  subst ht0
  intro hstop
  simp only [stopAt, stopFrom] at hstop
  obtain ⟨e, he, helt⟩ := hstop
  rw [herr] at he
  injection he with he
  subst he
  norm_num at helt

/-- C3 witness: the amended statement on a concrete converging run. -/
theorem C3_witness :
    (KLRState.train (fun _ => 1) Rat.sqrt
      (KLRState.init (linKernel 1) 0 4 1 (1 / 2)) !![(1 : ℚ)] ![1]).2.1 = none ∧
    ∃ α, (KLRState.train (fun _ => 1) Rat.sqrt
      (KLRState.init (linKernel 1) 0 4 1 (1 / 2)) !![(1 : ℚ)] ![1]).1.Alpha =
        some ⟨1, α⟩ := by
  have h : (KLRState.train (fun _ => 1) Rat.sqrt
      (KLRState.init (linKernel 1) 0 4 1 (1 / 2)) !![(1 : ℚ)] ![1]).2.1 = none := by
    rw [klr_train_unit_converges (by norm_num : (2 : ℚ) < 4)]
  exact ⟨h, (C3_convergence_warning_iff (fun _ => 1) Rat.sqrt _ _ _ h).2⟩

/-- C1 witness: the Newton-iteration statement on a concrete converging
run. -/
theorem C1_witness :
    (KLRState.train (fun _ => 1) Rat.sqrt
      (KLRState.init (linKernel 1) 0 3 1 (1 / 2)) !![(1 : ℚ)] ![1]).2.1 = none ∧
    ∃ T, T < (KLRState.init (linKernel 1) 0 3 1 (1 / 2)).maxIter ∧
      ∃ α, (KLRState.train (fun _ => 1) Rat.sqrt
        (KLRState.init (linKernel 1) 0 3 1 (1 / 2)) !![(1 : ℚ)] ![1]).1.Alpha =
          some ⟨1, α⟩ := by
  have h : (KLRState.train (fun _ => 1) Rat.sqrt
      (KLRState.init (linKernel 1) 0 3 1 (1 / 2)) !![(1 : ℚ)] ![1]).2.1 = none := by
    rw [klr_train_unit_converges (by norm_num : (2 : ℚ) < 3)]
  obtain ⟨-, -, T, hT, α, hα, -⟩ :=
    C1_train_newton_iteration (fun _ => 1) Rat.sqrt _ !![(1 : ℚ)] ![1] h
  exact ⟨h, T, hT, α, hα⟩

/-- C2 witness: a concrete successful ridge training run. -/
theorem C2_witness :
    ((KRRState.init (linKernel 1) 0).train !![(1 : ℚ)] ![1]).2 = none ∧
    ∃ α, (((KRRState.init (linKernel 1) 0).train !![(1 : ℚ)] ![1]).1).Alpha =
        some ⟨1, α⟩ ∧
      (((KRRState.init (linKernel 1) 0).train !![(1 : ℚ)] ![1]).1).Data =
        some ⟨1, !![(1 : ℚ)]⟩ := by
  refine ⟨krr_train_unit_ok, ?_⟩
  obtain ⟨α, hα, -, hD⟩ :=
    C2_krr_train_solves_system (KRRState.init (linKernel 1) 0) !![(1 : ℚ)] ![1]
      krr_train_unit_ok
  exact ⟨α, hα, hD⟩

/-- C7 witness: the round trip at `Lambda = 0` on a concrete invertible
instance. -/
theorem C7_witness :
    (KRRState.init (linKernel 1) 0).Lambda = 0 ∧
    ((KRRState.init (linKernel 1) 0).Kernel 1 1 !![(1 : ℚ)] !![1]).det ≠ 0 ∧
    ∃ α, ((KRRState.init (linKernel 1) 0).train !![(1 : ℚ)] ![1]).2 = none ∧
      ((KRRState.init (linKernel 1) 0).train !![(1 : ℚ)] ![1]).1.Alpha =
        some ⟨1, α⟩ := by
  have hdet : ((KRRState.init (linKernel 1) 0).Kernel 1 1 !![(1 : ℚ)] !![1]).det ≠ 0 := by
    show (linKernel 1 1 1 !![(1 : ℚ)] !![1]).det ≠ 0
    rw [linKernel_one_apply, one_mul, Matrix.det_fin_one_of]
    norm_num
  refine ⟨rfl, hdet, ?_⟩
  obtain ⟨α, h1, h2, -, -⟩ :=
    C7_ridge_round_trip (KRRState.init (linKernel 1) 0) !![(1 : ℚ)] ![1] rfl hdet
  exact ⟨α, h1, h2⟩

/-- C4 witness: prediction on a concretely trained logistic state. -/
theorem C4_witness :
    (⟨linKernel 1, 0, 1, 1, 1 / 2, some ⟨1, !![(1 : ℚ)]⟩,
        some ⟨1, fun _ => 3⟩⟩ : KLRState 1).Data = some ⟨1, !![(1 : ℚ)]⟩ ∧
    ∃ v, KLRState.predict (fun _ => 1)
        (⟨linKernel 1, 0, 1, 1, 1 / 2, some ⟨1, !![(1 : ℚ)]⟩,
          some ⟨1, fun _ => 3⟩⟩ : KLRState 1) !![(1 : ℚ)] = .ok v ∧
      ∀ i, v i = 1 ∨ v i = -1 := by
  refine ⟨rfl, ?_⟩
  obtain ⟨v, hv, -, hrange⟩ := C4_klr_predict_threshold (fun _ => 1)
    (⟨linKernel 1, 0, 1, 1, 1 / 2, some ⟨1, !![(1 : ℚ)]⟩,
      some ⟨1, fun _ => 3⟩⟩ : KLRState 1) !![(1 : ℚ)] !![(1 : ℚ)]
    (fun _ => 3) rfl rfl
  exact ⟨v, hv, hrange⟩

/-- A store of numpy arrays indexed by reference id.  This models Python's
reference semantics, needed to state aliasing properties of
`self.Data = X` (lines 36 and 109): the value model above cannot
distinguish a copy from an alias.  All arrays of a store share one shape,
which suffices for the properties under study. -/
def Store (n m : ℕ) : Type := ℕ → Matrix (Fin n) (Fin m) ℚ

/-- Ridge estimator state in the reference model: `DataRef` holds the
reference to the caller's array, exactly as `self.Data = X` stores the
reference, not a copy. -/
structure KRRRefState (n m : ℕ) where
  Kernel : KernelFun m
  Lambda : ℚ
  DataRef : Option ℕ
  Alpha : Option (Fin n → ℚ)

/-- `KernelRidgeRegression.train` in the reference model: reads the array
behind `xr` from the store at call time and stores the reference itself
(`self.Data = X`, line 36). -/
def KRRRefState.train {n m : ℕ} (σ : Store n m) (st : KRRRefState n m)
    (xr : ℕ) (y : Fin n → ℚ) : KRRRefState n m × Option PyError :=
  let X := σ xr
  let st₁ := { st with DataRef := some xr }
  match solveLin (st.Kernel n n X X +
      (st.Lambda * (n : ℚ)) • (1 : Matrix (Fin n) (Fin n) ℚ)) y with
  | none => (st₁, some .linAlgError)
  | some α => ({ st₁ with Alpha := some α }, none)

/-- `KernelRidgeRegression.predict` in the reference model: dereferences
`DataRef` in the store as it is at `predict` time (line 54 reads
`self.Data`). -/
def KRRRefState.predict {n m n' : ℕ} (σ : Store n m) (st : KRRRefState n m)
    (X : Matrix (Fin n') (Fin m) ℚ) : Except PyError (Fin n' → ℚ) :=
  match st.DataRef, st.Alpha with
  | some r, some A => .ok ((st.Kernel n' n X (σ r)).mulVec A)
  | _, _ => .error .noneTypeError

/-- Concrete successful training run in the reference model: the unit
store (array 0 is `[[1]]`), linear kernel, `Lambda = 0`, `y = [1]` gives
`Alpha = [1]` and stores reference `0`. -/
theorem krrRef_train_unit :
    KRRRefState.train (fun _ => !![(1 : ℚ)]) ⟨linKernel 1, 0, none, none⟩ 0 ![1] =
      (⟨linKernel 1, 0, some 0, some (fun _ => 1)⟩, none) := by
  simp only [KRRRefState.train]
  rw [linKernel_one_apply, one_mul,
    solveLin_one (by rw [add_smul_one_apply]; norm_num)]
  dsimp only
  congr 3
  funext i
  fin_cases i
  rw [add_smul_one_apply]
  norm_num


/-- Logistic estimator state in the reference model: as in `KRRRefState`,
`DataRef` holds the reference stored by `self.Data = X` (line 109). -/
structure KLRRefState (n m : ℕ) where
  Kernel : KernelFun m
  Lambda : ℚ
  tol : ℚ
  maxIter : ℕ
  threshold : ℚ
  DataRef : Option ℕ
  Alpha : Option (Fin n → ℚ)

/-- `KernelLogisticRegression.train` in the reference model: reads the
array behind `xr` from the store at call time, stores the reference itself
(`self.Data = X`, line 109), then runs the same loop as `KLRState.train`. -/
def KLRRefState.train {n m : ℕ} (ex sq : ℚ → ℚ) (σ : Store n m)
    (st : KLRRefState n m) (xr : ℕ) (y : Fin n → ℚ) :
    KLRRefState n m × Option PyError × Bool :=
  let X := σ xr
  let st₁ := { st with DataRef := some xr }
  let K := st.Kernel n n X X
  match klrGo ex sq K st.Lambda st.tol y st.maxIter 0 (fun _ => 0) with
  | .error e => (st₁, some e, false)
  | .ok out =>
    let warn := decide (out.lastStep = st.maxIter - 1) && decide (out.error > st.tol)
    ({ st₁ with Alpha := some out.alphaNew }, none, warn)

/-- `KernelLogisticRegression.predict` in the reference model: dereferences
`DataRef` in the store as it is at `predict` time (line 146 reads
`self.Data`), then applies the thresholded sigmoid of lines 147-150. -/
def KLRRefState.predict {n m n' : ℕ} (ex : ℚ → ℚ) (σ : Store n m)
    (st : KLRRefState n m) (X : Matrix (Fin n') (Fin m) ℚ) :
    Except PyError (Fin n' → ℚ) :=
  match st.DataRef, st.Alpha with
  | some r, some A =>
    let f := (st.Kernel n' n X (σ r)).mulVec A
    .ok (fun i => 2 * (if 1 / (1 + ex (-(f i))) > st.threshold then (1 : ℚ) else 0) - 1)
  | _, _ => .error .noneTypeError

/-- Rational stand-in for `np.exp` on the concrete logistic reference-model
runs: it equals the real exponential at `0` (the only value probed during
training, where `exp 0 = 1`), and at the nonzero prediction probes `±2` it
falls on the same side of `1` as the real exponential
(`exp (-2) < 1 < exp 2`), which is all the thresholded sigmoid compares. -/
def exQ : ℚ → ℚ := fun s => if s < 0 then 1 / 8 else if s = 0 then 1 else 8

/-- The concrete Newton solve of `klrStep_unit`, with `exQ` in place of
the constant stand-in (both equal `1` at the only probe `s = 0`). -/
theorem klrStep_unit_exQ :
    klrStep exQ !![(1 : ℚ)] 0 ![1] (fun _ => 0) = some (fun _ => 2) := by
  unfold klrStep
  rw [solveLin_one]
  · congr 1
    funext i
    fin_cases i
    norm_num [KLRloss, exQ, Matrix.mulVec_diagonal, Pi.sub_apply, Matrix.mulVec,
      Matrix.dotProduct, Fin.sum_univ_one, Matrix.mul_apply,
      Matrix.diagonal_apply_eq, Matrix.one_apply_eq]
  · norm_num [KLRloss, exQ, Matrix.mul_apply, Fin.sum_univ_one,
      Matrix.diagonal_apply_eq, Matrix.one_apply_eq, Matrix.mulVec,
      Matrix.dotProduct]

theorem klrGo_unit_exQ :
    klrGo exQ Rat.sqrt !![(1 : ℚ)] 0 3 ![1] 1 0 (fun _ => 0) =
      .ok ⟨fun _ => 2, 2, 0⟩ := by
  simp only [klrGo, klrStep_unit_exQ]
  rw [sqrt_err_unit, if_pos (by norm_num : (2 : ℚ) < 3)]

/-- Concrete successful logistic training run in the reference model: the
unit store, linear kernel, `Lambda = 0`, `tol = 3`, `max_iter = 1`,
`y = [1]` gives `Alpha = [2]` and stores reference `0`. -/
theorem klrRef_train_unit :
    KLRRefState.train exQ Rat.sqrt (fun _ => !![(1 : ℚ)])
      ⟨linKernel 1, 0, 3, 1, 1 / 2, none, none⟩ 0 ![1] =
    (⟨linKernel 1, 0, 3, 1, 1 / 2, some 0, some (fun _ => 2)⟩, none, false) := by
  have hK : linKernel 1 1 1 !![(1 : ℚ)] !![1] = !![1] := by
    rw [linKernel_one_apply, one_mul]
  simp only [KLRRefState.train, hK, klrGo_unit_exQ]
  norm_num

/-- C9 (counterexample): after a successful `train` on array `0`, mutating
that array in place (`Function.update` of the store) changes the result of
`predict` on the same query for both estimators — neither keeps its own
copy of the training features. -/
theorem C9_counterexample :
    (KRRRefState.predict (Function.update (fun _ => !![(1 : ℚ)]) 0 !![2])
        (KRRRefState.train (fun _ => !![(1 : ℚ)])
          ⟨linKernel 1, 0, none, none⟩ 0 ![1]).1 !![1] ≠
      KRRRefState.predict (fun _ => !![(1 : ℚ)])
        (KRRRefState.train (fun _ => !![(1 : ℚ)])
          ⟨linKernel 1, 0, none, none⟩ 0 ![1]).1 !![1]) ∧
    (KLRRefState.predict exQ (Function.update (fun _ => !![(1 : ℚ)]) 0 !![-1])
        (KLRRefState.train exQ Rat.sqrt (fun _ => !![(1 : ℚ)])
          ⟨linKernel 1, 0, 3, 1, 1 / 2, none, none⟩ 0 ![1]).1 !![1] ≠
      KLRRefState.predict exQ (fun _ => !![(1 : ℚ)])
        (KLRRefState.train exQ Rat.sqrt (fun _ => !![(1 : ℚ)])
          ⟨linKernel 1, 0, 3, 1, 1 / 2, none, none⟩ 0 ![1]).1 !![1]) := by
  constructor
  · rw [krrRef_train_unit]
    intro h
    simp only [KRRRefState.predict] at h
    injection h with h
    have h0 := congrFun h 0
    simp only [Function.update_same, linKernel, Matrix.mulVec, Matrix.dotProduct,
      Fin.sum_univ_one, Matrix.mul_apply, Matrix.transpose_apply] at h0
    norm_num at h0
  · rw [klrRef_train_unit]
    intro h
    simp only [KLRRefState.predict] at h
    injection h with h
    have h0 := congrFun h 0
    simp only [Function.update_same, linKernel, Matrix.mulVec, Matrix.dotProduct,
      Fin.sum_univ_one, Matrix.mul_apply, Matrix.transpose_apply] at h0
    norm_num [exQ] at h0

/-- C9 (amended): both estimators store a reference (alias) to the
caller's `X`, not an independent copy: after a successful `train` through
reference `xr`, `DataRef = xr` and every subsequent `predict` reads the
training features through `xr` in the *current* store, so in-place
mutations of the caller's array after `train` change the stored `Data`
and the results of subsequent `predict` calls. -/
theorem C9_amended_alias {n m n₂ m₂ : ℕ} (σ : Store n m) (st : KRRRefState n m)
    (xr : ℕ) (y : Fin n → ℚ) (st' : KRRRefState n m)
    (ex sq : ℚ → ℚ) (σL : Store n₂ m₂) (stL : KLRRefState n₂ m₂)
    (xrL : ℕ) (yL : Fin n₂ → ℚ) (stL' : KLRRefState n₂ m₂) (warnL : Bool)
    (h : KRRRefState.train σ st xr y = (st', none))
    (hL : KLRRefState.train ex sq σL stL xrL yL = (stL', none, warnL)) :
    (st'.DataRef = some xr ∧
      ∃ A, st'.Alpha = some A ∧
        ∀ (σ₂ : Store n m) (n' : ℕ) (X' : Matrix (Fin n') (Fin m) ℚ),
          KRRRefState.predict σ₂ st' X' =
            .ok ((st.Kernel n' n X' (σ₂ xr)).mulVec A)) ∧
    (stL'.DataRef = some xrL ∧
      ∃ A, stL'.Alpha = some A ∧
        ∀ (σ₂ : Store n₂ m₂) (n' : ℕ) (X' : Matrix (Fin n') (Fin m₂) ℚ),
          KLRRefState.predict ex σ₂ stL' X' = .ok (fun i =>
            2 * (if 1 / (1 + ex (-((stL.Kernel n' n₂ X' (σ₂ xrL)).mulVec A i))) >
                stL.threshold
              then (1 : ℚ) else 0) - 1)) := by
  constructor
  · cases hs : solveLin (st.Kernel n n (σ xr) (σ xr) +
        (st.Lambda * (n : ℚ)) • (1 : Matrix (Fin n) (Fin n) ℚ)) y with
    | none => simp [KRRRefState.train, hs] at h
    | some α =>
      simp only [KRRRefState.train, hs] at h
      injection h with h1 h2
      subst h1
      exact ⟨rfl, α, rfl, fun σ₂ n' X' => rfl⟩
  · cases hgo : klrGo ex sq (stL.Kernel n₂ n₂ (σL xrL) (σL xrL)) stL.Lambda
        stL.tol yL stL.maxIter 0 (fun _ => 0) with
    | error e => simp [KLRRefState.train, hgo] at hL
    | ok out =>
      simp only [KLRRefState.train, hgo] at hL
      injection hL with h1 h23
      subst h1
      exact ⟨rfl, out.alphaNew, rfl, fun σ₂ n' X' => rfl⟩

/-- C9 witness: the amended statement on the two concrete training runs. -/
theorem C9_witness :
    KRRRefState.train (fun _ => !![(1 : ℚ)]) ⟨linKernel 1, 0, none, none⟩ 0 ![1] =
      (⟨linKernel 1, 0, some 0, some (fun _ => 1)⟩, none) ∧
    KLRRefState.train exQ Rat.sqrt (fun _ => !![(1 : ℚ)])
        ⟨linKernel 1, 0, 3, 1, 1 / 2, none, none⟩ 0 ![1] =
      (⟨linKernel 1, 0, 3, 1, 1 / 2, some 0, some (fun _ => 2)⟩, none, false) ∧
    (⟨linKernel 1, 0, some 0, some (fun _ => (1 : ℚ))⟩ : KRRRefState 1 1).DataRef =
      some 0 ∧
    (⟨linKernel 1, 0, 3, 1, 1 / 2, some 0,
        some (fun _ => (2 : ℚ))⟩ : KLRRefState 1 1).DataRef = some 0 := by
  refine ⟨krrRef_train_unit, klrRef_train_unit, ?_, ?_⟩
  · exact (C9_amended_alias (fun _ => !![(1 : ℚ)]) ⟨linKernel 1, 0, none, none⟩
      0 ![1] ⟨linKernel 1, 0, some 0, some (fun _ => 1)⟩ exQ Rat.sqrt
      (fun _ => !![(1 : ℚ)]) ⟨linKernel 1, 0, 3, 1, 1 / 2, none, none⟩ 0 ![1]
      ⟨linKernel 1, 0, 3, 1, 1 / 2, some 0, some (fun _ => 2)⟩ false
      krrRef_train_unit klrRef_train_unit).1.1
  · exact (C9_amended_alias (fun _ => !![(1 : ℚ)]) ⟨linKernel 1, 0, none, none⟩
      0 ![1] ⟨linKernel 1, 0, some 0, some (fun _ => 1)⟩ exQ Rat.sqrt
      (fun _ => !![(1 : ℚ)]) ⟨linKernel 1, 0, 3, 1, 1 / 2, none, none⟩ 0 ![1]
      ⟨linKernel 1, 0, 3, 1, 1 / 2, some 0, some (fun _ => 2)⟩ false
      krrRef_train_unit klrRef_train_unit).2.1
